import Mathlib

/-!
Verification of the classyjson schema-driven loader.

Shallow embedding of `src/classyjson.py`: the `DotDict` attribute-access
mapping, the `ObjectSchema` / `ArraySchema` fragments with their
`get_jsonschema` (render) and `load` algorithms, the `ClassyObject` /
`ClassyArray` typed-class construction lifecycle, and the generic
`load` / `dump` entry points.  Python's dynamic values are modelled by the
closed `PVal` type; exceptions are modelled by `Except PyErr`; recursion
through the class environment is bounded by an explicit fuel parameter
(a call that would diverge or exceed the fuel returns `.error .fuelOut`,
which no claim relies on).
-/

namespace Classy

/-- Kind of a user-declared typed class: `ClassyObject` or `ClassyArray`. -/
inductive ClassKind where
  | object
  | array
deriving DecidableEq, Repr

/-- Which `get_jsonschema` / `load` override a schema instance dispatches to:
`BaseSchema`, `ObjectSchema` or `ArraySchema`. -/
inductive SchemaKind where
  | base
  | object
  | array
deriving DecidableEq, Repr

/-- A Python runtime value as used by classyjson: JSON scalars, lists and
dicts, plus `DotDict` instances (which carry both the underlying dict store
and the `__dict__` attribute store), schema instances (dict subclasses),
class objects used as schema values, typed-class instances, and a bound
method object (which `ArraySchema.get_jsonschema` line 294 leaks into the
rendered document).  Non-integral floats are carried opaquely by their
literal text, since classyjson never computes with them. -/
inductive PVal where
  | none
  | bool (b : Bool)
  | int (n : Int)
  | float (lit : String)
  | str (s : String)
  | list (xs : List PVal)
  | dict (kvs : List (String × PVal))
  | dotdict (store : List (String × PVal)) (attrs : List (String × PVal))
  | schemaObj (kind : SchemaKind) (kvs : List (String × PVal))
  | classRef (c : Nat)
  | classyObject (c : Nat) (store : List (String × PVal)) (attrs : List (String × PVal))
  | classyArray (c : Nat) (xs : List PVal)
  | methodRef (c : Nat)
deriving Repr

/-- Errors raised by the embedded code.  `.unknownVariant` is the decorated
`KeyError` of the generic `load` entry point and carries the attempted
discriminator value and the known variant names. -/
inductive PyErr where
  | validationErr
  | typeMismatch
  | typeErr
  | keyErr
  | attrErr
  | unknownVariant (attempted : PVal) (known : List String)
  | fuelOut
deriving Repr

/-- The process-wide environment of user-declared typed classes: index `c`
holds class `c`'s kind and its materialized schema's keyword mapping. -/
abbrev ClassEnv := List (ClassKind × List (String × PVal))

/-- Python-dict insertion: overwrite in place if the key exists (keeping its
position), otherwise append at the end. -/
def insertKV : List (String × PVal) → String → PVal → List (String × PVal)
  | [], k, v => [(k, v)]
  | (k', v') :: rest, k, v =>
    if k' = k then (k', v) :: rest else (k', v') :: insertKV rest k v

/-- Python-dict lookup (first, hence unique, occurrence of the key). -/
def lookupKV : List (String × PVal) → String → Option PVal
  | [], _ => Option.none
  | (k', v') :: rest, k => if k' = k then some v' else lookupKV rest k

/-- `isinstance(v, dict)`: the dict content of a value, for plain dicts and
all dict subclasses in the model (`DotDict`, schema instances, `ClassyObject`
instances).  For `DotDict`-like values the content is the dict store, which
is what `dict` iteration and `json.dumps` see. -/
def dictFields : PVal → Option (List (String × PVal))
  | .dict kvs => some kvs
  | .dotdict store _ => some store
  | .schemaObj _ kvs => some kvs
  | .classyObject _ store _ => some store
  | _ => Option.none

/-- `isinstance(v, list)`: the element list of a value, for plain lists and
the `ClassyArray` list subclass. -/
def listElems : PVal → Option (List PVal)
  | .list xs => some xs
  | .classyArray _ xs => some xs
  | _ => Option.none

/-- `type(v) == dict`: exact-type check used by `DotDict.__setitem__`
(subclasses such as `DotDict` itself or schema instances do not match). -/
def isExactDict : PVal → Bool
  | .dict _ => true
  | _ => false

/-- `_is_classy(v)`: `v` is a class object subclassing `ClassyJson`. -/
def isClassRef : PVal → Bool
  | .classRef _ => true
  | _ => false

/-- `type(v) == dict` holds, i.e. `v` is a plain (unwrapped) mapping. -/
def isPlainDict : PVal → Bool
  | .dict _ => true
  | _ => false

mutual

/-- The value stored into `DotDict.__dict__` by `DotDict.__setitem__`
(classyjson.py lines 112-120): a value of exact type `dict` is replaced by
`self._dictclass(value)` — a fresh `DotDict` whose dict store holds the
original key-value pairs and whose `__dict__` holds the recursively wrapped
values — and any other value is kept as is. -/
def wrapIfDict : PVal → PVal
  | .dict kvs => .dotdict kvs (wrapAttrs kvs)
  | v => v

/-- The `__dict__` attribute store produced by constructing a `DotDict`
from the given key-value pairs: each value is wrapped by `wrapIfDict`. -/
def wrapAttrs : List (String × PVal) → List (String × PVal)
  | [] => []
  | (k, v) :: rest => (k, wrapIfDict v) :: wrapAttrs rest

end

/-- `DotDict.__setitem__(name, value)` on a `DotDict` with the given stores
(classyjson.py lines 112-120): the dict store receives the ORIGINAL value and
the `__dict__` attribute store receives the wrapped value.  On a value that
is not a `DotDict` the operation is not defined and leaves it unchanged. -/
def dotSetItem : PVal → String → PVal → PVal
  | .dotdict store attrs, k, v =>
    .dotdict (insertKV store k v) (insertKV attrs k (wrapIfDict v))
  | d, _, _ => d

/-- `DotDict(*pairs)`: construction runs `update`, which inserts every pair
through `__setitem__` into an initially empty instance. -/
def dotDictOf (pairs : List (String × PVal)) : PVal :=
  pairs.foldl (fun d kv => dotSetItem d kv.1 kv.2) (.dotdict [] [])

/-- `DotDict.__getitem__` (classyjson.py lines 104-110): lookup in the dict
store (the decorated `KeyError` is modelled by `.keyErr`).  Plain dicts and
the other dict subclasses look up their dict content the same way. -/
def getItem (v : PVal) (k : String) : Except PyErr PVal :=
  match dictFields v with
  | some kvs =>
    match lookupKV kvs k with
    | some x => .ok x
    | Option.none => .error .keyErr
  | Option.none => .error .typeErr

/-- Attribute access `v.name`: on a `DotDict` (or `ClassyObject`) it reads
the `__dict__` attribute store, which `__setitem__` keeps in sync with the
dict store (classyjson.py lines 146-155); on any other value there is no
such attribute and an `AttributeError` is raised. -/
def attrGet (v : PVal) (k : String) : Except PyErr PVal :=
  match v with
  | .dotdict _ attrs | .classyObject _ _ attrs =>
    match lookupKV attrs k with
    | some x => .ok x
    | Option.none => .error .attrErr
  | _ => .error .attrErr

/-- Sequence indexing `v[i]` for lists and `ClassyArray` instances. -/
def indexGet (v : PVal) (i : Nat) : Except PyErr PVal :=
  match listElems v with
  | some xs =>
    match xs.get? i with
    | some x => .ok x
    | Option.none => .error .keyErr
  | Option.none => .error .typeErr

mutual

/-- `v` is a pure decoded JSON value: scalars, lists and plain mappings
only — no class objects, schema instances, typed instances or wrapped
mappings. -/
def isPureJson : PVal → Bool
  | .none => true
  | .bool _ => true
  | .int _ => true
  | .float _ => true
  | .str _ => true
  | .list xs => isPureJsonList xs
  | .dict kvs => isPureJsonKVs kvs
  | _ => false

def isPureJsonList : List PVal → Bool
  | [] => true
  | x :: rest => isPureJson x && isPureJsonList rest

def isPureJsonKVs : List (String × PVal) → Bool
  | [] => true
  | (_, v) :: rest => isPureJson v && isPureJsonKVs rest

end

mutual

/-- No plain (unwrapped) mapping is reachable from `v` by a chain of
attribute accesses: every value in a `DotDict`'s attribute store is itself
not a plain mapping, recursively. -/
def attrChainClean : PVal → Bool
  | .dotdict _ attrs => attrsClean attrs
  | _ => true

def attrsClean : List (String × PVal) → Bool
  | [] => true
  | (_, v) :: rest => (!isPlainDict v) && attrChainClean v && attrsClean rest

end

/-- A JSON-schema `type` name accepts a value.  Booleans are not integers
here (the external validator special-cases `bool` although Python treats it
as an `int` subtype); an unrecognized type name constrains nothing. -/
def typeMatches (t : String) (v : PVal) : Bool :=
  match t with
  | "string" => (match v with | .str _ => true | _ => false)
  | "integer" => (match v with | .int _ => true | _ => false)
  | "number" => (match v with | .int _ => true | .float _ => true | _ => false)
  | "boolean" => (match v with | .bool _ => true | _ => false)
  | "null" => (match v with | .none => true | _ => false)
  | "object" => (dictFields v).isSome
  | "array" => (listElems v).isSome
  | _ => true

mutual

/-- Modelled from the spec: the external Validation Gateway (`jsonschema`
library), a black box with contract `validate(value, schemaDocument) ->
void | Error` checking the value structurally against the fully rendered
document.  Only the keywords the system interprets — `type`, `required`,
`properties`, `items` — constrain the value; everything else passes
through.  The recursion is bounded by fuel; with fuel exhausted the check
conservatively fails (no claim depends on that case). -/
def specValidate : Nat → PVal → PVal → Bool
  | 0, _, _ => false
  | fuel + 1, doc, v =>
    match doc with
    | .dict dkvs =>
      typeKeywordOk dkvs v && requiredKeywordOk dkvs v
        && propsKeywordOk fuel dkvs v && itemsKeywordOk fuel dkvs v
    | _ => true

def typeKeywordOk (dkvs : List (String × PVal)) (v : PVal) : Bool :=
  match lookupKV dkvs "type" with
  | Option.none => true
  | some (.str t) => typeMatches t v
  | some (.list ts) =>
    ts.any fun tv => match tv with | .str t => typeMatches t v | _ => true
  | some _ => true

def requiredKeywordOk (dkvs : List (String × PVal)) (v : PVal) : Bool :=
  match lookupKV dkvs "required" with
  | some (.list rs) =>
    match dictFields v with
    | some vkvs =>
      rs.all fun r => match r with
        | .str k => (lookupKV vkvs k).isSome
        | _ => true
    | Option.none => true
  | _ => true

def propsKeywordOk (fuel : Nat) (dkvs : List (String × PVal)) (v : PVal) : Bool :=
  match fuel with
  | 0 => false
  | fuel + 1 =>
    match lookupKV dkvs "properties" with
    | some pd =>
      match dictFields pd, dictFields v with
      | some pkvs, some vkvs => propsListOk fuel pkvs vkvs
      | _, _ => true
    | Option.none => true

def propsListOk (fuel : Nat) (pkvs vkvs : List (String × PVal)) : Bool :=
  match fuel with
  | 0 => false
  | fuel + 1 =>
    match pkvs with
    | [] => true
    | (k, sd) :: rest =>
      (match lookupKV vkvs k with
       | some sub => specValidate fuel sd sub
       | Option.none => true)
      && propsListOk fuel rest vkvs

def itemsKeywordOk (fuel : Nat) (dkvs : List (String × PVal)) (v : PVal) : Bool :=
  match fuel with
  | 0 => false
  | fuel + 1 =>
    match lookupKV dkvs "items", v with
    | some (.dict ikvs), .list xs => itemsAllOk fuel (.dict ikvs) xs
    | some (.list sds), .list xs => itemsZipOk fuel sds xs
    | _, _ => true

def itemsAllOk (fuel : Nat) (sd : PVal) (xs : List PVal) : Bool :=
  match fuel with
  | 0 => false
  | fuel + 1 =>
    match xs with
    | [] => true
    | x :: rest => specValidate fuel sd x && itemsAllOk fuel sd rest

def itemsZipOk (fuel : Nat) (sds : List PVal) (xs : List PVal) : Bool :=
  match fuel with
  | 0 => false
  | fuel + 1 =>
    match sds, xs with
    | sd :: srest, x :: xrest => specValidate fuel sd x && itemsZipOk fuel srest xrest
    | _, _ => true

end

mutual

/-- Dispatch of `schema.get_jsonschema()` by the schema instance's class
(`BaseSchema`, `ObjectSchema` or `ArraySchema` overrides). -/
def renderSchema (env : ClassEnv) : Nat → SchemaKind → List (String × PVal) → Except PyErr PVal
  | 0, _, _ => .error .fuelOut
  | fuel + 1, kind, kvs =>
    match kind with
    | .base => renderVal env fuel (.dict kvs)
    | .object => renderObjectSchema env fuel kvs
    | .array => renderArraySchema env fuel kvs

/-- `cls.schema.get_jsonschema()` for a typed class: look the class up in
the environment and render its materialized schema with the override
matching the class kind (`ObjectSchema` for `ClassyObject` subclasses,
`ArraySchema` for `ClassyArray` subclasses). -/
def renderClassSchema (env : ClassEnv) : Nat → Nat → Except PyErr PVal
  | 0, _ => .error .fuelOut
  | fuel + 1, c =>
    match env.get? c with
    | some (.object, skvs) => renderSchema env fuel .object skvs
    | some (.array, skvs) => renderSchema env fuel .array skvs
    | Option.none => .error .keyErr

/-- `ObjectSchema.get_jsonschema` (classyjson.py lines 211-225): copy the
keyword mapping (a plain dict), render each property — recursively for
schema instances, through the class schema for typed-class references,
unchanged otherwise — and store the result under `properties`. -/
def renderObjectSchema (env : ClassEnv) : Nat → List (String × PVal) → Except PyErr PVal
  | 0, _ => .error .fuelOut
  | fuel + 1, kvs => do
    let propsVal := (lookupKV kvs "properties").getD (.dict [])
    let pkvs ←
      match propsVal with
      | .dict pkvs => Except.ok pkvs
      | .dotdict store _ => Except.ok store
      | .schemaObj _ pkvs => Except.ok pkvs
      | .classyObject _ store _ => Except.ok store
      | _ => Except.error .attrErr
    let rendered ← renderProps env fuel pkvs
    Except.ok (.dict (insertKV kvs "properties" (.dict rendered)))

def renderProps (env : ClassEnv) : Nat → List (String × PVal) → Except PyErr (List (String × PVal))
  | 0, _ => .error .fuelOut
  | fuel + 1, props =>
    match props with
    | [] => Except.ok []
    | (k, p) :: rest => do
      let r ←
        match p with
        | .schemaObj kind pkvs => renderSchema env fuel kind pkvs
        | .classRef c => renderClassSchema env fuel c
        | _ => Except.ok p
      let rrest ← renderProps env fuel rest
      Except.ok ((k, r) :: rrest)

/-- `ArraySchema.get_jsonschema` (classyjson.py lines 277-300): copy the
keyword mapping and substitute `items`.  A single schema instance or
typed-class reference is rendered; a positional list renders schema
instances, appends the UNCALLED bound method `item.schema.get_jsonschema`
for typed-class references (line 294 lacks the call parentheses), and
copies anything else with `dict(item)`; an absent (`None`) `items` leaves
the document unchanged. -/
def renderArraySchema (env : ClassEnv) : Nat → List (String × PVal) → Except PyErr PVal
  | 0, _ => .error .fuelOut
  | fuel + 1, kvs =>
    match (lookupKV kvs "items").getD .none with
    | .none => Except.ok (.dict kvs)
    | .schemaObj kind ikvs => do
      let r ← renderSchema env fuel kind ikvs
      Except.ok (.dict (insertKV kvs "items" r))
    | .classRef c => do
      let r ← renderClassSchema env fuel c
      Except.ok (.dict (insertKV kvs "items" r))
    | .list items => do
      let rs ← renderItemsList env fuel items
      Except.ok (.dict (insertKV kvs "items" (.list rs)))
    | other => Except.ok (.dict (insertKV kvs "items" other))

def renderItemsList (env : ClassEnv) : Nat → List PVal → Except PyErr (List PVal)
  | 0, _ => .error .fuelOut
  | fuel + 1, items =>
    match items with
    | [] => Except.ok []
    | item :: rest => do
      let r ←
        match item with
        | .schemaObj kind ikvs => renderSchema env fuel kind ikvs
        | .classRef c => Except.ok (.methodRef c)
        | .dict ikvs => Except.ok (.dict ikvs)
        | .dotdict store _ => Except.ok (.dict store)
        | .classyObject _ store _ => Except.ok (.dict store)
        | _ => Except.error .typeErr
      let rrest ← renderItemsList env fuel rest
      Except.ok (r :: rrest)

/-- `_get_jsonschema` (classyjson.py lines 166-180): the recursive helper
used by `BaseSchema.get_jsonschema`.  The `isinstance` chain checks `list`
first and `dict` second, so schema instances (dict subclasses) are walked
as plain mappings here; bare typed-class references render their class
schema; a bound method (or any other unknown object) raises `TypeError`. -/
def renderVal (env : ClassEnv) : Nat → PVal → Except PyErr PVal
  | 0, _ => .error .fuelOut
  | fuel + 1, v =>
    match v with
    | .list xs => do
      let rs ← renderValList env fuel xs
      Except.ok (.list rs)
    | .classyArray _ xs => do
      let rs ← renderValList env fuel xs
      Except.ok (.list rs)
    | .dict kvs => do
      let rs ← renderValKVs env fuel kvs
      Except.ok (.dict rs)
    | .dotdict store _ => do
      let rs ← renderValKVs env fuel store
      Except.ok (.dict rs)
    | .schemaObj _ kvs => do
      let rs ← renderValKVs env fuel kvs
      Except.ok (.dict rs)
    | .classyObject _ store _ => do
      let rs ← renderValKVs env fuel store
      Except.ok (.dict rs)
    | .none => Except.ok .none
    | .bool b => Except.ok (.bool b)
    | .int n => Except.ok (.int n)
    | .float f => Except.ok (.float f)
    | .str s => Except.ok (.str s)
    | .classRef c => renderClassSchema env fuel c
    | .methodRef _ => Except.error .typeErr

def renderValList (env : ClassEnv) : Nat → List PVal → Except PyErr (List PVal)
  | 0, _ => .error .fuelOut
  | fuel + 1, xs =>
    match xs with
    | [] => Except.ok []
    | x :: rest => do
      let r ← renderVal env fuel x
      let rrest ← renderValList env fuel rest
      Except.ok (r :: rrest)

def renderValKVs (env : ClassEnv) : Nat → List (String × PVal) → Except PyErr (List (String × PVal))
  | 0, _ => .error .fuelOut
  | fuel + 1, kvs =>
    match kvs with
    | [] => Except.ok []
    | (k, v) :: rest => do
      let r ← renderVal env fuel v
      let rrest ← renderValKVs env fuel rest
      Except.ok ((k, r) :: rrest)

end

/-- `BaseSchema.load` step 1 (classyjson.py lines 196-200): when `validate`
is set, render this fragment's document and run the Validation Gateway on
it; a structural failure raises the validation error and stops the load. -/
def checkValidate (env : ClassEnv) (fuel : Nat) (kind : SchemaKind)
    (skvs : List (String × PVal)) (inst : PVal) (validate : Bool) :
    Except PyErr Unit :=
  if validate then do
    let doc ← renderSchema env fuel kind skvs
    if specValidate fuel doc inst then Except.ok () else Except.error .validationErr
  else Except.ok ()

/-- The dict store and `__dict__` attribute store of a `ClassyObject` after
`self.update(data)`: every pair goes through `DotDict.__setitem__`, which
stores the original value in the dict store and the wrapped value in the
attribute store. -/
def dotUpdateFold (pairs : List (String × PVal)) :
    List (String × PVal) × List (String × PVal) :=
  pairs.foldl
    (fun sa kv => (insertKV sa.1 kv.1 kv.2, insertKV sa.2 kv.1 (wrapIfDict kv.2)))
    ([], [])

/-- `schema_item["type"]`: subscripting a per-position item schema.  Dict
subclasses look up the key (`KeyError` if absent); anything else — a class
object, a string, a list — is not subscriptable by a string and raises
`TypeError`. -/
def subscriptType (sd : PVal) : Except PyErr PVal :=
  match dictFields sd with
  | some kvs =>
    match lookupKV kvs "type" with
    | some t => Except.ok t
    | Option.none => Except.error .keyErr
  | Option.none => Except.error .typeErr

mutual

/-- `ObjectSchema._load_prop` (classyjson.py lines 227-245): an absent (or
`None`) value resolves the property's `default` if the schema is a mapping
declaring one — a typed-class default is instantiated by `default()`, a
call that raises `TypeError` because `ClassyObject.__init__` /
`ClassyArray.__init__` (lines 375, 389) have no default for their
`instance` parameter — and otherwise resolves to `None`; a present value
is loaded through the typed class with validation suppressed when the
property schema is a class reference, and passed through unchanged
otherwise. -/
def loadProp (env : ClassEnv) : Nat → PVal → PVal → Except PyErr PVal
  | 0, _, _ => .error .fuelOut
  | fuel + 1, ps, v =>
    match v with
    | .none =>
      match dictFields ps with
      | some pskvs =>
        match lookupKV pskvs "default" with
        | some d => if isClassRef d then Except.error .typeErr else Except.ok d
        | Option.none => Except.ok .none
      | Option.none => Except.ok .none
    | _ =>
      match ps with
      | .classRef c => classyConstruct env fuel c v false
      | _ => Except.ok v

/-- The property loop of `ObjectSchema.load` (classyjson.py lines 254-262):
for each declared property in order, take the instance's value if the key
is present (else `None`) and store `_load_prop`'s result into the result
mapping. -/
def loadProps (env : ClassEnv) :
    Nat → List (String × PVal) → List (String × PVal) → List (String × PVal) →
    Except PyErr (List (String × PVal))
  | 0, _, _, _ => .error .fuelOut
  | fuel + 1, props, ikvs, acc =>
    match props with
    | [] => Except.ok acc
    | (k, ps) :: rest =>
      match loadProp env fuel ps ((lookupKV ikvs k).getD .none) with
      | .error e => .error e
      | .ok lv => loadProps env fuel rest ikvs (insertKV acc k lv)

/-- `ObjectSchema.load` (classyjson.py lines 248-262): validate when asked,
require a mapping instance (`TypeError` otherwise), then run the property
loop over `properties` (whose value must be a mapping; iterating a `None`
value raises `AttributeError`). -/
def objectLoad (env : ClassEnv) :
    Nat → List (String × PVal) → PVal → Bool → Except PyErr (List (String × PVal))
  | 0, _, _, _ => .error .fuelOut
  | fuel + 1, skvs, inst, validate =>
    match checkValidate env fuel .object skvs inst validate with
    | .error e => .error e
    | .ok _ =>
      match dictFields inst with
      | Option.none => .error .typeMismatch
      | some ikvs =>
        match dictFields ((lookupKV skvs "properties").getD (.dict [])) with
        | Option.none => .error .attrErr
        | some pkvs => loadProps env fuel pkvs ikvs []

/-- `ArraySchema.load` (classyjson.py lines 302-330): validate when asked,
require a sequence instance (`TypeError` otherwise), then convert elements:
a mapping `items` schema repeats for every element; a positional list zips
with the elements, truncating at the shorter side; anything else (the
absent / `None` case included) makes the loop subscript `None["type"]` on
the first element, raising `TypeError` — only an empty sequence survives
unconverted. -/
def arrayLoad (env : ClassEnv) :
    Nat → List (String × PVal) → PVal → Bool → Except PyErr (List PVal)
  | 0, _, _, _ => .error .fuelOut
  | fuel + 1, skvs, inst, validate =>
    match checkValidate env fuel .array skvs inst validate with
    | .error e => .error e
    | .ok _ =>
      match listElems inst with
      | Option.none => .error .typeMismatch
      | some xs =>
        match (lookupKV skvs "items").getD .none with
        | .dict ikvs => arrayItemsHomog env fuel ikvs xs
        | .dotdict store _ => arrayItemsHomog env fuel store xs
        | .schemaObj _ ikvs => arrayItemsHomog env fuel ikvs xs
        | .classyObject _ store _ => arrayItemsHomog env fuel store xs
        | .list sds => arrayItemsPos env fuel sds xs
        | _ =>
          match xs with
          | [] => Except.ok []
          | _ => Except.error .typeErr

/-- The homogeneous-items loop: every element is paired with the same item
schema; `schema_item["type"]` is read on each iteration (`KeyError` when
the item schema has no `type`). -/
def arrayItemsHomog (env : ClassEnv) :
    Nat → List (String × PVal) → List PVal → Except PyErr (List PVal)
  | 0, _, _ => .error .fuelOut
  | fuel + 1, ikvs, xs =>
    match xs with
    | [] => Except.ok []
    | x :: rest =>
      match lookupKV ikvs "type" with
      | Option.none => .error .keyErr
      | some t =>
        match convertItem env fuel t x with
        | .error e => .error e
        | .ok v =>
          match arrayItemsHomog env fuel ikvs rest with
          | .error e => .error e
          | .ok vrest => Except.ok (v :: vrest)

/-- The positional-items loop: `zip` stops at the shorter of the item-schema
list and the element list, so trailing elements on either side are
discarded. -/
def arrayItemsPos (env : ClassEnv) :
    Nat → List PVal → List PVal → Except PyErr (List PVal)
  | 0, _, _ => .error .fuelOut
  | fuel + 1, sds, xs =>
    match sds, xs with
    | sd :: srest, x :: xrest =>
      match subscriptType sd with
      | .error e => .error e
      | .ok t =>
        match convertItem env fuel t x with
        | .error e => .error e
        | .ok v =>
          match arrayItemsPos env fuel srest xrest with
          | .error e => .error e
          | .ok vrest => Except.ok (v :: vrest)
    | _, _ => Except.ok []

/-- One element conversion: when the item schema's `type` is a typed class,
construct it from the element with validation suppressed; otherwise pass
the element through unchanged. -/
def convertItem (env : ClassEnv) : Nat → PVal → PVal → Except PyErr PVal
  | 0, _, _ => .error .fuelOut
  | fuel + 1, t, x =>
    match t with
    | .classRef c => classyConstruct env fuel c x false
    | _ => Except.ok x

/-- Typed-class construction (`ClassyObject.__init__` lines 375-380 and
`ClassyArray.__init__` lines 389-393): the `ClassyJson.__init__` super call
runs `schema.load(instance, validate=validate)` for its validation side
effect and discards the result; then the load is repeated with validation
off and the result populates the instance — through `DotDict.update` for
object-shaped classes, `list.extend` for array-shaped ones.  The
`initialize` hook is a no-op in the base class. -/
def classyConstruct (env : ClassEnv) : Nat → Nat → PVal → Bool → Except PyErr PVal
  | 0, _, _, _ => .error .fuelOut
  | fuel + 1, c, inst, validate =>
    match env.get? c with
    | Option.none => .error .keyErr
    | some (.object, skvs) =>
      match objectLoad env fuel skvs inst validate with
      | .error e => .error e
      | .ok _ =>
        match objectLoad env fuel skvs inst false with
        | .error e => .error e
        | .ok data =>
          Except.ok (.classyObject c (dotUpdateFold data).1 (dotUpdateFold data).2)
    | some (.array, skvs) =>
      match arrayLoad env fuel skvs inst validate with
      | .error e => .error e
      | .ok _ =>
        match arrayLoad env fuel skvs inst false with
        | .error e => .error e
        | .ok xs => Except.ok (.classyArray c xs)

end

/-- Lookup in a discriminator variant mapping. -/
def lookupVariant : List (String × Nat) → String → Option Nat
  | [], _ => Option.none
  | (k', c) :: rest, k => if k' = k then some c else lookupVariant rest k

/-- The generic `load` entry point (classyjson.py lines 418-444), taken at
the decoded-value boundary (text decoding and the string-vs-filepath
ambiguity belong to the external codec, spec section 1).  With a
discriminator `classy_options=(keyword, options)` the decoded input must be
a mapping (`TypeError` otherwise); the discriminator field is read
(`KeyError` when absent) and `options[name]` selects the class.  A string
value that is a key selects its class; a hashable value that is not a key
(a string miss, or a number / boolean / null, which can never equal a
string key) raises `KeyError`, caught and re-raised as the decorated
unknown-variant `KeyError`; an UNHASHABLE value (a decoded array or
mapping, or a list/dict subclass instance — `dict.__hash__` is `None`)
makes `options[name]` raise a bare `TypeError`, which the `except
KeyError` handler does not catch, so it propagates undecorated.  A
resolved class is constructed from the decoded input with full validation,
and with no class at all the decoded value is returned unchanged. -/
def genericLoad (env : ClassEnv) (fuel : Nat) (classy : Option Nat)
    (classyOptions : Option (String × List (String × Nat))) (jsonLoaded : PVal) :
    Except PyErr PVal :=
  match classyOptions with
  | Option.none =>
    match classy with
    | Option.none => Except.ok jsonLoaded
    | some c => classyConstruct env fuel c jsonLoaded true
  | some (keyword, options) =>
    match dictFields jsonLoaded with
    | Option.none => Except.error .typeErr
    | some ikvs =>
      match lookupKV ikvs keyword with
      | Option.none => Except.error .keyErr
      | some name =>
        match name with
        | .str s =>
          match lookupVariant options s with
          | some c => classyConstruct env fuel c jsonLoaded true
          | Option.none => Except.error (.unknownVariant name (options.map Prod.fst))
        | .list _ => Except.error .typeErr
        | .dict _ => Except.error .typeErr
        | .dotdict _ _ => Except.error .typeErr
        | .schemaObj _ _ => Except.error .typeErr
        | .classyObject _ _ _ => Except.error .typeErr
        | .classyArray _ _ => Except.error .typeErr
        | other => Except.error (.unknownVariant other (options.map Prod.fst))

mutual

/-- `json.dumps` at the decoded-value boundary (the rendering to text and
back is the external codec of spec section 1, whose contract makes decoding
invert encoding): dict subclasses serialize their dict-store content, list
subclasses their elements; class objects and bound methods are not JSON
serializable and raise `TypeError`. -/
def serialize : PVal → Except PyErr PVal
  | .none => Except.ok .none
  | .bool b => Except.ok (.bool b)
  | .int n => Except.ok (.int n)
  | .float f => Except.ok (.float f)
  | .str s => Except.ok (.str s)
  | .list xs =>
    match serializeList xs with
    | .error e => .error e
    | .ok rs => Except.ok (.list rs)
  | .classyArray _ xs =>
    match serializeList xs with
    | .error e => .error e
    | .ok rs => Except.ok (.list rs)
  | .dict kvs =>
    match serializeKVs kvs with
    | .error e => .error e
    | .ok rs => Except.ok (.dict rs)
  | .dotdict store _ =>
    match serializeKVs store with
    | .error e => .error e
    | .ok rs => Except.ok (.dict rs)
  | .schemaObj _ kvs =>
    match serializeKVs kvs with
    | .error e => .error e
    | .ok rs => Except.ok (.dict rs)
  | .classyObject _ store _ =>
    match serializeKVs store with
    | .error e => .error e
    | .ok rs => Except.ok (.dict rs)
  | .classRef _ => Except.error .typeErr
  | .methodRef _ => Except.error .typeErr

def serializeList : List PVal → Except PyErr (List PVal)
  | [] => Except.ok []
  | x :: rest =>
    match serialize x with
    | .error e => .error e
    | .ok r =>
      match serializeList rest with
      | .error e => .error e
      | .ok rrest => Except.ok (r :: rrest)

def serializeKVs : List (String × PVal) → Except PyErr (List (String × PVal))
  | [] => Except.ok []
  | (k, v) :: rest =>
    match serialize v with
    | .error e => .error e
    | .ok r =>
      match serializeKVs rest with
      | .error e => .error e
      | .ok rrest => Except.ok ((k, r) :: rrest)

end

/-- Modelled from the spec: a schema fragment as seen by the union
composition operator — an ordered keyword mapping always carrying a `type`
keyword holding an ordered, duplicate-free set of type names.  The operator
itself (`BaseSchema.__add__` with the primitive fragment classes) is not
among the sources here; only its tests and the spec describe it. -/
structure Fragment where
  types : List String
  others : List (String × PVal)

/-- Modelled from the spec: merge the right operand's types into the left's
"to form a set (deduplicated, order: A's types first in original
declaration order, then B's new types appended)". -/
def dedupAppend (xs ys : List String) : List String :=
  xs ++ ys.filter (fun t => decide (t ∉ xs))

/-- Modelled from the spec: union composition `A + B` — "start from a copy
of A's keyword mapping; merge B's `type` into A's `type` ...; for every
other keyword present in B, overwrite the corresponding keyword in C
(last-applied-wins)". -/
def fragAdd (a b : Fragment) : Fragment :=
  { types := dedupAppend a.types b.types
    others := b.others.foldl (fun acc kv => insertKV acc kv.1 kv.2) a.others }

/-! ## Concrete fixtures

The classes of the repository's own test and example files, materialized
exactly as `ClassyJson.__init_subclass__` builds them: the raw schema dict
is splatted into `ObjectSchema.__init__` / `ArraySchema.__init__`, which
append the `type` keyword and the `properties` / `items` keyword after the
remaining raw keys. -/

/-- The `items` schema of `MyArrray` in `tests/test_classy.py`. -/
def myArrItems : PVal :=
  .dict [("type", .str "object"),
         ("properties", .dict
           [("a1", .dict [("type", .list [.str "string", .str "boolean"])]),
            ("a2", .dict [("type", .str "number")])])]

/-- `MyArrray.schema` materialized: `ArraySchema(items=myArrItems)`. -/
def myArrraySchema : List (String × PVal) :=
  [("type", .str "array"), ("items", myArrItems)]

/-- `MyObj.schema` materialized: `ObjectSchema(required=["k1"],
properties={"k1": {"type": "string"}, "k2": MyArrray})`, `MyArrray` being
class 0 of `envClassy`. -/
def myObjSchema : List (String × PVal) :=
  [("required", .list [.str "k1"]),
   ("type", .str "object"),
   ("properties", .dict
     [("k1", .dict [("type", .str "string")]),
      ("k2", .classRef 0)])]

/-- Class environment of the `tests/test_classy.py` scenario: class 0 is
`MyArrray` (array-shaped), class 1 is `MyObj` (object-shaped). -/
def envClassy : ClassEnv :=
  [(.array, myArrraySchema), (.object, myObjSchema)]

/-- The input mapping of the `tests/test_classy.py` scenario. -/
def myObjData : PVal :=
  .dict [("k1", .str "foo"),
         ("k2", .list
           [.dict [("a1", .str "bar"), ("a2", .float "2.34")],
            .dict [("a1", .bool true)]])]

/-- `ConfigV1.schema` materialized (`examples/config.py`). -/
def configV1Schema : List (String × PVal) :=
  [("type", .str "object"),
   ("properties", .dict
     [("version", .dict [("type", .str "string")]),
      ("verbosity", .dict [("type", .str "integer")])])]

/-- A `ConfigV2`-like second variant class (`examples/config.py`), reduced
to its plain keywords. -/
def configV2Schema : List (String × PVal) :=
  [("type", .str "object"),
   ("properties", .dict
     [("version", .dict [("type", .str "string")]),
      ("items", .dict [("type", .str "array")])])]

/-- Class environment of the discriminator scenario: class 0 is `ConfigV1`,
class 1 is the `ConfigV2`-like variant. -/
def envConfig : ClassEnv :=
  [(.object, configV1Schema), (.object, configV2Schema)]

/-- The discriminator variant mapping `{"v1": ConfigV1, "v2": ConfigV2}`. -/
def configVariants : List (String × Nat) :=
  [("v1", 0), ("v2", 1)]

/-- The dict store of a `DotDict` / `ClassyObject` (what key lookup and
`json.dumps` see). -/
def dotStore : PVal → List (String × PVal)
  | .dotdict store _ => store
  | .classyObject _ store _ => store
  | _ => []

/-- `v is None`. -/
def isNone : PVal → Bool
  | .none => true
  | _ => false

/-- The class a typed instance belongs to, if it is one. -/
def instanceOfClass : PVal → Option Nat
  | .classyObject c _ _ => some c
  | .classyArray c _ => some c
  | _ => Option.none

/-- A per-position item schema that is a plain mapping whose `type` keyword
is present and is not a typed-class reference, so that the conversion loop
passes the element through unchanged. -/
def plainTypedItem (sd : PVal) : Bool :=
  match sd with
  | .dict kvs =>
    match lookupKV kvs "type" with
    | some t => !isClassRef t
    | Option.none => false
  | _ => false

/-- Property `k` of the input mapping is present with a non-`None` pure
JSON value. -/
def presentPureIn (ikvs : List (String × PVal)) (k : String) : Bool :=
  match lookupKV ikvs k with
  | some v => (!isNone v) && isPureJson v
  | Option.none => false

/-- The result mapping `ObjectSchema.load` produces when every declared
property is present in the input and loads by pass-through: each property
key paired with the input's value at that key. -/
def propValsOf (pkvs ikvs : List (String × PVal)) : List (String × PVal) :=
  pkvs.map fun kv => (kv.1, (lookupKV ikvs kv.1).getD .none)

/-- The class the discriminator value selects, if any: a string value that
is a key of the variant mapping. -/
def variantFor (options : List (String × Nat)) (name : PVal) : Option Nat :=
  match name with
  | .str s => lookupVariant options s
  | _ => Option.none

/-- `hash(v)` succeeds: scalars (and class objects or bound methods) are
hashable; lists and dicts — including their subclasses, whose
`__hash__` is `None` — are not, so using one as a dict key raises
`TypeError`. -/
def isHashable : PVal → Bool
  | .list _ => false
  | .dict _ => false
  | .dotdict _ _ => false
  | .schemaObj _ _ => false
  | .classyObject _ _ _ => false
  | .classyArray _ _ => false
  | _ => true

/-! ## Key-value store lemmas -/

theorem lookupKV_insertKV_self (l : List (String × PVal)) (k : String) (v : PVal) :
    lookupKV (insertKV l k v) k = some v := by
  induction l with
  | nil => simp [insertKV, lookupKV]
  | cons kv rest ih =>
    by_cases h : kv.1 = k
    · simp [insertKV, lookupKV, h]
    · simp [insertKV, lookupKV, h, ih]

theorem lookupKV_insertKV_ne (l : List (String × PVal)) (k k' : String) (v : PVal)
    (h : k' ≠ k) : lookupKV (insertKV l k' v) k = lookupKV l k := by
  induction l with
  | nil => simp [insertKV, lookupKV, h]
  | cons kv rest ih =>
    by_cases hk : kv.1 = k'
    · simp [insertKV, lookupKV, hk, h]
    · simp only [insertKV, hk, if_false]
      by_cases hk2 : kv.1 = k
      · simp [lookupKV, hk2]
      · simp [lookupKV, hk2, ih]

theorem lookupKV_eq_none_iff (l : List (String × PVal)) (k : String) :
    lookupKV l k = Option.none ↔ k ∉ l.map Prod.fst := by
  induction l with
  | nil => simp [lookupKV]
  | cons kv rest ih =>
    by_cases h : kv.1 = k
    · simp [lookupKV, h]
    · simp [lookupKV, h, ih, Ne.symm h]

theorem insertKV_of_not_mem (l : List (String × PVal)) (k : String) (v : PVal)
    (h : lookupKV l k = Option.none) : insertKV l k v = l ++ [(k, v)] := by
  induction l with
  | nil => simp [insertKV]
  | cons kv rest ih =>
    by_cases hk : kv.1 = k
    · simp [lookupKV, hk] at h
    · simp only [lookupKV, hk, if_false] at h
      simp [insertKV, hk, ih h]

theorem lookupKV_foldl_insertKV_not_mem (l : List (String × PVal))
    (init : List (String × PVal)) (k : String) (h : k ∉ l.map Prod.fst) :
    lookupKV (l.foldl (fun acc kv => insertKV acc kv.1 kv.2) init) k = lookupKV init k := by
  induction l generalizing init with
  | nil => rfl
  | cons kv rest ih =>
    obtain ⟨k0, v0⟩ := kv
    simp only [List.map_cons, List.mem_cons] at h
    push_neg at h
    simp only [List.foldl_cons]
    rw [ih _ h.2]
    exact lookupKV_insertKV_ne _ _ _ _ (Ne.symm h.1)

theorem lookupKV_foldl_insertKV_of_mem (l : List (String × PVal))
    (init : List (String × PVal)) (k : String) (v : PVal)
    (hnd : (l.map Prod.fst).Nodup) (h : lookupKV l k = some v) :
    lookupKV (l.foldl (fun acc kv => insertKV acc kv.1 kv.2) init) k = some v := by
  induction l generalizing init with
  | nil => simp [lookupKV] at h
  | cons kv rest ih =>
    obtain ⟨k0, v0⟩ := kv
    simp only [List.map_cons, List.nodup_cons] at hnd
    by_cases hk : k0 = k
    · subst hk
      have h' : v0 = v := by simpa [lookupKV] using h
      simp only [List.foldl_cons]
      rw [lookupKV_foldl_insertKV_not_mem _ _ _ hnd.1, lookupKV_insertKV_self, h']
    · simp only [lookupKV, hk, if_false] at h
      simp only [List.foldl_cons]
      exact ih _ hnd.2 h

theorem foldl_insertKV_disjoint (l : List (String × PVal)) (acc : List (String × PVal))
    (hnd : (l.map Prod.fst).Nodup)
    (hdisj : ∀ k, k ∈ l.map Prod.fst → lookupKV acc k = Option.none) :
    l.foldl (fun acc kv => insertKV acc kv.1 kv.2) acc = acc ++ l := by
  induction l generalizing acc with
  | nil => simp
  | cons kv rest ih =>
    obtain ⟨k0, v0⟩ := kv
    simp only [List.map_cons, List.nodup_cons] at hnd
    simp only [List.foldl_cons]
    rw [insertKV_of_not_mem _ _ _ (hdisj k0 (by simp))]
    rw [ih _ hnd.2 ?_]
    · simp
    · intro k hk
      rw [lookupKV_eq_none_iff]
      simp only [List.map_append, List.mem_append, List.map_cons, List.map_nil,
        List.mem_singleton]
      push_neg
      refine ⟨(lookupKV_eq_none_iff acc k).1 (hdisj k (by simp [hk])), ?_⟩
      intro hkk
      exact hnd.1 (hkk ▸ hk)

/-! ## Union composition (C1) -/

theorem dedupAppend_filter_eq (x y z : List String) :
    z.filter (fun t => decide (t ∉ dedupAppend x y))
      = (z.filter (fun t => decide (t ∉ y))).filter (fun t => decide (t ∉ x)) := by
  rw [List.filter_filter]
  apply List.filter_congr
  intro t _
  by_cases h1 : t ∈ x <;> by_cases h2 : t ∈ y <;>
    simp [dedupAppend, h1, h2]

theorem dedupAppend_assoc (x y z : List String) :
    dedupAppend (dedupAppend x y) z = dedupAppend x (dedupAppend y z) := by
  have h1 := dedupAppend_filter_eq x y z
  simp only [dedupAppend] at h1 ⊢
  rw [List.filter_append, List.append_assoc, h1]

/-- C1: union composition `A + B` keeps A's types in their original order,
appends B's new types deduplicated, lets B's value overwrite every other
keyword present in B (last-applied wins), and is associative on the
resulting type set. -/
theorem c1_fragAdd_union (a b : Fragment)
    (hb : (b.others.map Prod.fst).Nodup) :
    (fragAdd a b).types = dedupAppend a.types b.types
    ∧ (∀ k v, lookupKV b.others k = some v →
        lookupKV (fragAdd a b).others k = some v)
    ∧ ∀ c : Fragment,
        (fragAdd (fragAdd a b) c).types = (fragAdd a (fragAdd b c)).types := by
  refine ⟨rfl, ?_, ?_⟩
  · intro k v hkv
    exact lookupKV_foldl_insertKV_of_mem _ _ _ _ hb hkv
  · intro c
    exact dedupAppend_assoc a.types b.types c.types

/-- Witness for C1 at the fragments of `tests/test_schema.py`
(`IntSchema() + StrSchema(format="date-time") + StrSchema(format="email")`):
the right operand's `format` wins and the chained type sets agree. -/
theorem c1_fragAdd_union_witness :
    lookupKV (fragAdd ⟨["integer"], []⟩
        ⟨["string"], [("format", .str "date-time")]⟩).others "format"
      = some (.str "date-time")
    ∧ (fragAdd (fragAdd ⟨["integer"], []⟩ ⟨["string"], [("format", .str "date-time")]⟩)
        ⟨["string"], [("format", .str "email")]⟩).types
      = (fragAdd ⟨["integer"], []⟩
          (fragAdd ⟨["string"], [("format", .str "date-time")]⟩
            ⟨["string"], [("format", .str "email")]⟩)).types :=
  ⟨(c1_fragAdd_union ⟨["integer"], []⟩ ⟨["string"], [("format", .str "date-time")]⟩
      (by decide)).2.1 "format" _ rfl,
   (c1_fragAdd_union ⟨["integer"], []⟩ ⟨["string"], [("format", .str "date-time")]⟩
      (by decide)).2.2 ⟨["string"], [("format", .str "email")]⟩⟩

/-! ## Attribute-access wrapping (C4) -/

mutual

theorem wrapIfDict_clean : ∀ v : PVal, isPureJson v = true →
    isPlainDict (wrapIfDict v) = false ∧ attrChainClean (wrapIfDict v) = true
  | .dict kvs, h =>
    ⟨rfl, by
      show attrsClean (wrapAttrs kvs) = true
      exact wrapAttrs_clean kvs (by simpa [isPureJson] using h)⟩
  | .none, _ => ⟨rfl, rfl⟩
  | .bool _, _ => ⟨rfl, rfl⟩
  | .int _, _ => ⟨rfl, rfl⟩
  | .float _, _ => ⟨rfl, rfl⟩
  | .str _, _ => ⟨rfl, rfl⟩
  | .list _, _ => ⟨rfl, rfl⟩
  | .dotdict _ _, h => by simp [isPureJson] at h
  | .schemaObj _ _, h => by simp [isPureJson] at h
  | .classRef _, h => by simp [isPureJson] at h
  | .classyObject _ _ _, h => by simp [isPureJson] at h
  | .classyArray _ _, h => by simp [isPureJson] at h
  | .methodRef _, h => by simp [isPureJson] at h

theorem wrapAttrs_clean : ∀ kvs : List (String × PVal), isPureJsonKVs kvs = true →
    attrsClean (wrapAttrs kvs) = true
  | [], _ => rfl
  | (_, v) :: rest, h => by
    simp only [isPureJsonKVs, Bool.and_eq_true] at h
    have h1 := wrapIfDict_clean v h.1
    have h2 := wrapAttrs_clean rest h.2
    simp [wrapAttrs, attrsClean, h1.1, h1.2, h2]

end

theorem attrsClean_insertKV (a : List (String × PVal)) (k : String) (w : PVal)
    (ha : attrsClean a = true)
    (hw : isPlainDict w = false ∧ attrChainClean w = true) :
    attrsClean (insertKV a k w) = true := by
  induction a with
  | nil => simp [insertKV, attrsClean, hw.1, hw.2]
  | cons kv rest ih =>
    obtain ⟨k0, v0⟩ := kv
    simp only [attrsClean, Bool.and_eq_true] at ha
    by_cases hk : k0 = k
    · simp [insertKV, hk, attrsClean, hw.1, hw.2, ha.2]
    · simp [insertKV, hk, attrsClean, ha.1.1, ha.1.2, ih ha.2]

theorem dotSetItem_foldl_clean (pairs : List (String × PVal)) :
    ∀ store attrs, attrsClean attrs = true → isPureJsonKVs pairs = true →
    attrChainClean (pairs.foldl (fun d kv => dotSetItem d kv.1 kv.2) (.dotdict store attrs)) = true
    ∧ dotStore (pairs.foldl (fun d kv => dotSetItem d kv.1 kv.2) (.dotdict store attrs))
        = pairs.foldl (fun acc kv => insertKV acc kv.1 kv.2) store := by
  induction pairs with
  | nil =>
    intro store attrs ha _
    exact ⟨by simpa [attrChainClean] using ha, rfl⟩
  | cons kv rest ih =>
    intro store attrs ha hp
    obtain ⟨k0, v0⟩ := kv
    simp only [isPureJsonKVs, Bool.and_eq_true] at hp
    simp only [List.foldl_cons, dotSetItem]
    exact ih _ _ (attrsClean_insertKV _ _ _ ha (wrapIfDict_clean v0 hp.1)) hp.2

/-- C4 counterexample: inserting the plain mapping `{"b": 1}` under key
`"a"` leaves the plain mapping reachable by key lookup — `d["a"]` returns
the original unwrapped dict, because `DotDict.__setitem__` passes the
original `value`, not the wrapped copy, to `dict.__setitem__`. -/
theorem c4_counterexample :
    getItem (dotDictOf [("a", .dict [("b", .int 1)])]) "a"
      = .ok (.dict [("b", .int 1)])
    ∧ isPlainDict (.dict [("b", .int 1)]) = true :=
  ⟨rfl, rfl⟩

/-- C4 amended: after any sequence of pure-JSON key insertions into a fresh
`DotDict`, plain-mapping values are recursively wrapped only on the
attribute-access side — no plain mapping is reachable through attribute
access at any depth — while the dict store (what key lookup reads) keeps
the originally inserted, possibly plain, values. -/
theorem c4_dotdict_attr_wrapped (pairs : List (String × PVal))
    (hp : isPureJsonKVs pairs = true) :
    attrChainClean (dotDictOf pairs) = true
    ∧ dotStore (dotDictOf pairs)
        = pairs.foldl (fun acc kv => insertKV acc kv.1 kv.2) [] :=
  dotSetItem_foldl_clean pairs [] [] rfl hp

/-- Witness for C4 at the nested-mapping insertion of the counterexample. -/
theorem c4_dotdict_attr_wrapped_witness :
    isPureJsonKVs [("a", PVal.dict [("b", PVal.int 1)])] = true
    ∧ attrChainClean (dotDictOf [("a", PVal.dict [("b", PVal.int 1)])]) = true
    ∧ dotStore (dotDictOf [("a", PVal.dict [("b", PVal.int 1)])])
        = [("a", PVal.dict [("b", PVal.int 1)])] :=
  ⟨rfl, (c4_dotdict_attr_wrapped [("a", PVal.dict [("b", PVal.int 1)])] rfl).1,
    (c4_dotdict_attr_wrapped [("a", PVal.dict [("b", PVal.int 1)])] rfl).2⟩

/-! ## Concrete load behavior (C2, C5, C6, C7) -/

/-- C2: an array fragment whose `items` keyword is absent (its value is
`None`) renders to a document any sequence satisfies, yet loading the
validated one-element sequence `[1]` with `validate=True` raises
`TypeError` — the conversion loop subscripts `schema_item["type"]` with
`schema_item` being `None` — instead of accepting the sequence unchanged. -/
theorem c2_items_absent_raises :
    renderSchema [] 30 .array [("type", .str "array"), ("items", PVal.none)]
      = .ok (.dict [("type", .str "array"), ("items", PVal.none)])
    ∧ specValidate 30 (.dict [("type", .str "array"), ("items", PVal.none)])
        (.list [.int 1]) = true
    ∧ arrayLoad [] 30 [("type", .str "array"), ("items", PVal.none)]
        (.list [.int 1]) true = .error .typeErr
    ∧ arrayLoad [] 30 [("type", .str "array"), ("items", PVal.none)]
        (.list []) true = .ok [] :=
  ⟨rfl, rfl, rfl, rfl⟩

/-- C5: rendering an array fragment whose positional `items` list holds a
typed-class reference puts the UNCALLED bound method
`item.schema.get_jsonschema` into the rendered document (line 294 of the
source misses the call parentheses), so the output is not a purely
structural document. -/
theorem c5_render_leaks_method :
    renderArraySchema envConfig 30
        [("type", .str "array"), ("items", .list [.classRef 0])]
      = .ok (.dict [("type", .str "array"), ("items", .list [.methodRef 0])])
    ∧ isPureJson (.dict [("type", .str "array"), ("items", .list [.methodRef 0])])
        = false :=
  ⟨rfl, rfl⟩

/-- C6: for a property key absent from the input, a literal `default` is
returned and no `default` resolves to `None`; but a typed-class `default`
raises `TypeError`, because `_load_prop` calls `default()` with no
arguments while `ClassyObject.__init__` requires its `instance` argument —
so the whole object load fails instead of holding a fresh instance. -/
theorem c6_default_resolution :
    loadProp envConfig 30 (.dict [("type", .str "integer"), ("default", .int 0)])
        .none = .ok (.int 0)
    ∧ loadProp envConfig 30 (.dict [("type", .str "integer")]) .none = .ok .none
    ∧ loadProp envConfig 30 (.dict [("type", .str "object"), ("default", .classRef 0)])
        .none = .error .typeErr
    ∧ objectLoad envConfig 30
        [("type", .str "object"),
         ("properties", .dict
           [("a", .dict [("type", .str "object"), ("default", .classRef 0)])])]
        (.dict []) false = .error .typeErr :=
  ⟨rfl, rfl, rfl, rfl⟩

/-- The instance the `tests/test_classy.py` scenario actually constructs:
the array elements stay plain mappings because `ArraySchema.load` only
converts elements whose item-schema `type` is a typed class, and the item
schema here has `type: "object"`. -/
def myObjInstance : PVal :=
  .classyObject 1
    [("k1", .str "foo"),
     ("k2", .classyArray 0
       [.dict [("a1", .str "bar"), ("a2", .float "2.34")],
        .dict [("a1", .bool true)]])]
    [("k1", .str "foo"),
     ("k2", .classyArray 0
       [.dict [("a1", .str "bar"), ("a2", .float "2.34")],
        .dict [("a1", .bool true)]])]

/-- C7: constructing `MyObj` from the scenario input succeeds and exposes
`.k1 == "foo"`, but `.k2[0]` is a plain mapping, so the attribute access
`.k2[0].a1` raises `AttributeError` instead of yielding `"bar"`. -/
theorem c7_nested_scenario :
    classyConstruct envClassy 30 1 myObjData true = .ok myObjInstance
    ∧ attrGet myObjInstance "k1" = .ok (.str "foo")
    ∧ (do
        let k2 ← attrGet myObjInstance "k2"
        let e0 ← indexGet k2 0
        attrGet e0 "a1") = (Except.error .attrErr : Except PyErr PVal)
    ∧ isPlainDict (.dict [("a1", .str "bar"), ("a2", .float "2.34")]) = true :=
  ⟨rfl, rfl, rfl, rfl⟩

/-! ## Object load as a projection (C8) -/

theorem loadProps_lookup_not_mem (env : ClassEnv) (props : List (String × PVal)) :
    ∀ (fuel : Nat) (ikvs acc d : List (String × PVal)),
      loadProps env fuel props ikvs acc = .ok d →
      ∀ k, k ∉ props.map Prod.fst → lookupKV d k = lookupKV acc k := by
  induction props with
  | nil =>
    intro fuel ikvs acc d h k _
    match fuel with
    | 0 => exact Except.noConfusion h
    | fuel + 1 =>
      simp only [loadProps] at h
      injection h with h
      rw [h]
  | cons kv rest ih =>
    intro fuel ikvs acc d h k hk
    obtain ⟨k0, ps⟩ := kv
    match fuel with
    | 0 => exact Except.noConfusion h
    | fuel + 1 =>
      simp only [List.map_cons, List.mem_cons, not_or] at hk
      cases hlp : loadProp env fuel ps ((lookupKV ikvs k0).getD PVal.none) with
      | error e =>
        simp only [loadProps, hlp] at h
        exact Except.noConfusion h
      | ok lv =>
        simp only [loadProps, hlp] at h
        rw [ih fuel ikvs (insertKV acc k0 lv) d h k hk.2,
          lookupKV_insertKV_ne _ _ _ _ (Ne.symm hk.1)]

theorem loadProps_keys (env : ClassEnv) (props : List (String × PVal)) :
    ∀ (fuel : Nat) (ikvs acc d : List (String × PVal)),
      loadProps env fuel props ikvs acc = .ok d →
      (props.map Prod.fst).Nodup →
      (∀ k, k ∈ props.map Prod.fst → lookupKV acc k = Option.none) →
      d.map Prod.fst = acc.map Prod.fst ++ props.map Prod.fst := by
  induction props with
  | nil =>
    intro fuel ikvs acc d h _ _
    match fuel with
    | 0 => exact Except.noConfusion h
    | fuel + 1 =>
      simp only [loadProps] at h
      injection h with h
      rw [← h]
      simp
  | cons kv rest ih =>
    intro fuel ikvs acc d h hnd hdisj
    obtain ⟨k0, ps⟩ := kv
    match fuel with
    | 0 => exact Except.noConfusion h
    | fuel + 1 =>
      simp only [List.map_cons, List.nodup_cons] at hnd
      cases hlp : loadProp env fuel ps ((lookupKV ikvs k0).getD PVal.none) with
      | error e =>
        simp only [loadProps, hlp] at h
        exact Except.noConfusion h
      | ok lv =>
        simp only [loadProps, hlp] at h
        have hacc0 : lookupKV acc k0 = Option.none := hdisj k0 (by simp)
        have hdisj2 : ∀ k, k ∈ rest.map Prod.fst →
            lookupKV (insertKV acc k0 lv) k = Option.none := by
          intro k hkr
          rw [lookupKV_insertKV_ne _ _ _ _ (fun he => hnd.1 (by rw [he]; exact hkr))]
          exact hdisj k (by simp [hkr])
        have hkeys : (insertKV acc k0 lv).map Prod.fst = acc.map Prod.fst ++ [k0] := by
          rw [insertKV_of_not_mem _ _ _ hacc0]
          simp
        rw [ih fuel ikvs (insertKV acc k0 lv) d h hnd.2 hdisj2, hkeys]
        simp

/-- C8: whenever an object-fragment load succeeds, the result mapping binds
no key outside the declared property set, and (for duplicate-free declared
properties) its keys are exactly the declared properties in declaration
order — the schema projects the input onto the declared property set. -/
theorem c8_objectLoad_projection (env : ClassEnv) (fuel : Nat)
    (skvs : List (String × PVal)) (inst : PVal) (vb : Bool)
    (pkvs d : List (String × PVal))
    (hp : dictFields ((lookupKV skvs "properties").getD (.dict [])) = some pkvs)
    (h : objectLoad env fuel skvs inst vb = .ok d) :
    (∀ k, k ∉ pkvs.map Prod.fst → lookupKV d k = Option.none)
    ∧ ((pkvs.map Prod.fst).Nodup → d.map Prod.fst = pkvs.map Prod.fst) := by
  match fuel with
  | 0 => exact Except.noConfusion h
  | fuel + 1 =>
    simp only [objectLoad] at h
    cases hcv : checkValidate env fuel .object skvs inst vb with
    | error e =>
      simp only [hcv] at h
      exact Except.noConfusion h
    | ok u =>
      simp only [hcv] at h
      cases hdf : dictFields inst with
      | none =>
        simp only [hdf] at h
        exact Except.noConfusion h
      | some ikvs =>
        simp only [hdf, hp] at h
        constructor
        · intro k hk
          have := loadProps_lookup_not_mem env pkvs fuel ikvs [] d h k hk
          simpa [lookupKV] using this
        · intro hnd
          have := loadProps_keys env pkvs fuel ikvs [] d h hnd
            (by intro k _; rfl)
          simpa using this

/-- Witness for C8: loading `{"version": "v1", "extra": 5}` through the
`ConfigV1` fragment drops the undeclared key `"extra"` and binds exactly
the declared properties in order. -/
theorem c8_objectLoad_projection_witness :
    lookupKV [("version", PVal.str "v1"), ("verbosity", PVal.none)] "extra"
      = Option.none
    ∧ [("version", PVal.str "v1"), ("verbosity", PVal.none)].map Prod.fst
      = ["version", "verbosity"] :=
  ⟨(c8_objectLoad_projection envConfig 30 configV1Schema
      (.dict [("version", .str "v1"), ("extra", .int 5)]) false
      [("version", .dict [("type", .str "string")]),
       ("verbosity", .dict [("type", .str "integer")])]
      [("version", PVal.str "v1"), ("verbosity", PVal.none)]
      rfl rfl).1 "extra" (by decide),
   (c8_objectLoad_projection envConfig 30 configV1Schema
      (.dict [("version", .str "v1"), ("extra", .int 5)]) false
      [("version", .dict [("type", .str "string")]),
       ("verbosity", .dict [("type", .str "integer")])]
      [("version", PVal.str "v1"), ("verbosity", PVal.none)]
      rfl rfl).2 (by decide)⟩

/-! ## Positional array truncation (C3) -/

theorem convertItem_passthrough (env : ClassEnv) (fuel : Nat) (t x v : PVal)
    (ht : isClassRef t = false) (h : convertItem env fuel t x = .ok v) : v = x := by
  match fuel with
  | 0 => exact Except.noConfusion h
  | fuel + 1 =>
    cases t
    case classRef c => simp [isClassRef] at ht
    all_goals
      simp only [convertItem] at h
      injection h with h
      exact h.symm

theorem arrayItemsPos_passthrough (env : ClassEnv) (sds : List PVal) :
    ∀ (fuel : Nat) (xs out : List PVal),
      (∀ sd ∈ sds, plainTypedItem sd = true) →
      arrayItemsPos env fuel sds xs = .ok out →
      out = xs.take sds.length := by
  induction sds with
  | nil =>
    intro fuel xs out _ h
    match fuel with
    | 0 => exact Except.noConfusion h
    | fuel + 1 =>
      simp only [arrayItemsPos] at h
      injection h with h
      simp [← h]
  | cons sd srest ih =>
    intro fuel xs out hplain h
    match fuel with
    | 0 => exact Except.noConfusion h
    | fuel + 1 =>
      match xs with
      | [] =>
        simp only [arrayItemsPos] at h
        injection h with h
        simp [← h]
      | x :: xrest =>
        have hsd := hplain sd (by simp)
        match sd with
        | .dict kvs =>
          cases hlt : lookupKV kvs "type" with
          | none => simp [plainTypedItem, hlt] at hsd
          | some t =>
            simp only [plainTypedItem, hlt, Bool.not_eq_true'] at hsd
            simp only [arrayItemsPos, subscriptType, dictFields, hlt] at h
            cases hc : convertItem env fuel t x with
            | error e => simp only [hc] at h; exact Except.noConfusion h
            | ok v =>
              simp only [hc] at h
              cases hr : arrayItemsPos env fuel srest xrest with
              | error e => simp only [hr] at h; exact Except.noConfusion h
              | ok vrest =>
                simp only [hr] at h
                injection h with h
                rw [← h, convertItem_passthrough env fuel t x v hsd hc,
                  ih fuel xrest vrest (fun s hs => hplain s (by simp [hs])) hr]
                rfl
        | .none | .bool _ | .int _ | .float _ | .str _ | .list _ | .dotdict _ _
        | .schemaObj _ _ | .classRef _ | .classyObject _ _ _ | .classyArray _ _
        | .methodRef _ => simp [plainTypedItem] at hsd

/-- C3 amended: a positional `items` list shorter than the input sequence
converts the paired positions and DROPS the trailing input elements — the
successful load returns exactly the first `len(items)` positions (here:
pass-through conversions, the item schemas being plain non-class mappings),
without failing on the length mismatch. -/
theorem c3_positional_truncates (env : ClassEnv) (fuel : Nat)
    (skvs : List (String × PVal)) (sds xs out : List PVal) (vb : Bool)
    (hitems : (lookupKV skvs "items").getD .none = .list sds)
    (hplain : ∀ sd ∈ sds, plainTypedItem sd = true)
    (h : arrayLoad env fuel skvs (.list xs) vb = .ok out) :
    out = xs.take sds.length := by
  match fuel with
  | 0 => exact Except.noConfusion h
  | fuel + 1 =>
    simp only [arrayLoad] at h
    cases hcv : checkValidate env fuel .array skvs (.list xs) vb with
    | error e =>
      simp only [hcv] at h
      exact Except.noConfusion h
    | ok u =>
      simp only [hcv, listElems, hitems] at h
      exact arrayItemsPos_passthrough env sds fuel xs out hplain h

/-- C3 counterexample: with one positional item schema and the two-element
input `[1, 2]`, the load returns `[1]` — the trailing element `2` is
dropped from the result, not passed through into it. -/
theorem c3_counterexample :
    arrayLoad [] 30
        [("type", .str "array"), ("items", .list [.dict [("type", .str "integer")]])]
        (.list [.int 1, .int 2]) false = .ok [.int 1]
    ∧ [PVal.int 1] ≠ [PVal.int 1, PVal.int 2] :=
  ⟨rfl, by
    intro h
    injection h with h1 h2
    exact List.noConfusion h2⟩

/-- Witness for C3 at the counterexample input. -/
theorem c3_positional_truncates_witness :
    [PVal.int 1] = [PVal.int 1, PVal.int 2].take 1 :=
  c3_positional_truncates [] 30
    [("type", .str "array"), ("items", .list [.dict [("type", .str "integer")]])]
    [.dict [("type", .str "integer")]] [.int 1, .int 2] [.int 1] false rfl
    (by
      intro sd hsd
      simp only [List.mem_singleton] at hsd
      rw [hsd]
      rfl)
    rfl

/-! ## Discriminator dispatch (C10) -/

theorem classyConstruct_instanceOf (env : ClassEnv) (fuel : Nat) (c : Nat)
    (v inst : PVal) (vb : Bool)
    (h : classyConstruct env fuel c v vb = .ok inst) :
    instanceOfClass inst = some c := by
  match fuel with
  | 0 => exact Except.noConfusion h
  | fuel + 1 =>
    simp only [classyConstruct] at h
    cases he : env.get? c with
    | none =>
      simp only [he] at h
      exact Except.noConfusion h
    | some kd =>
      obtain ⟨kind, skvs⟩ := kd
      cases kind with
      | object =>
        simp only [he] at h
        cases h1 : objectLoad env fuel skvs v vb with
        | error e =>
          simp only [h1] at h
          exact Except.noConfusion h
        | ok u =>
          simp only [h1] at h
          cases h2 : objectLoad env fuel skvs v false with
          | error e =>
            simp only [h2] at h
            exact Except.noConfusion h
          | ok data =>
            simp only [h2] at h
            injection h with h
            rw [← h]
            rfl
      | array =>
        simp only [he] at h
        cases h1 : arrayLoad env fuel skvs v vb with
        | error e =>
          simp only [h1] at h
          exact Except.noConfusion h
        | ok u =>
          simp only [h1] at h
          cases h2 : arrayLoad env fuel skvs v false with
          | error e =>
            simp only [h2] at h
            exact Except.noConfusion h
          | ok xs =>
            simp only [h2] at h
            injection h with h
            rw [← h]
            rfl

/-- C10 counterexample: with the variants `{"v1": ConfigV1, "v2":
ConfigV2}`, the input `{"version": [1], "verbosity": 1}` carries a
discriminator value that is not a key of the variant mapping, yet the load
fails with a bare `TypeError` — `options[name]` raises it for the
unhashable list before any `KeyError` can be caught and decorated — and
not with the unknown-variant error surfacing the attempted value and the
known variants. -/
theorem c10_counterexample :
    genericLoad envConfig 30 Option.none (some ("version", configVariants))
        (.dict [("version", .list [.int 1]), ("verbosity", .int 1)])
      = .error .typeErr
    ∧ genericLoad envConfig 30 Option.none (some ("version", configVariants))
        (.dict [("version", .list [.int 1]), ("verbosity", .int 1)])
      ≠ .error (.unknownVariant (.list [.int 1]) ["v1", "v2"]) :=
  ⟨rfl, by
    intro h
    have h2 : (Except.error PyErr.typeErr : Except PyErr PVal)
        = .error (.unknownVariant (.list [.int 1]) ["v1", "v2"]) := h
    injection h2 with h3
    exact PyErr.noConfusion h3⟩

/-- C10 amended: generic load with a discriminator mapping on a decoded
mapping input: when the discriminator field's value is a key of the
variant mapping, the load is exactly the selected class's construction
with full validation (and any instance it returns belongs to that class);
when it is a HASHABLE value that is not a key, the load fails with the
unknown-variant error surfacing the attempted value and the known variant
names; when it is unhashable (a decoded array or mapping), `options[name]`
raises a bare `TypeError` that bypasses the decorating handler.  In every
failure no instance is constructed. -/
theorem c10_discriminator_load (env : ClassEnv) (fuel : Nat) (kw : String)
    (options : List (String × Nat)) (v : PVal) (ikvs : List (String × PVal))
    (name : PVal)
    (hv : dictFields v = some ikvs)
    (hname : lookupKV ikvs kw = some name) :
    (∀ c, variantFor options name = some c →
      genericLoad env fuel Option.none (some (kw, options)) v
          = classyConstruct env fuel c v true
      ∧ ∀ inst, genericLoad env fuel Option.none (some (kw, options)) v = .ok inst →
          instanceOfClass inst = some c)
    ∧ (variantFor options name = Option.none → isHashable name = true →
      genericLoad env fuel Option.none (some (kw, options)) v
        = .error (.unknownVariant name (options.map Prod.fst)))
    ∧ (isHashable name = false →
      genericLoad env fuel Option.none (some (kw, options)) v
        = .error .typeErr) := by
  refine ⟨?_, ?_, ?_⟩
  · intro c hc
    cases name
    case str s =>
      have hc' : lookupVariant options s = some c := hc
      have heq : genericLoad env fuel Option.none (some (kw, options)) v
          = classyConstruct env fuel c v true := by
        simp [genericLoad, hv, hname, hc']
      refine ⟨heq, ?_⟩
      intro inst hinst
      rw [heq] at hinst
      exact classyConstruct_instanceOf env fuel c v inst true hinst
    all_goals simp [variantFor] at hc
  · intro hc hhash
    cases name
    case str s =>
      have hc' : lookupVariant options s = Option.none := hc
      simp [genericLoad, hv, hname, hc']
    case none => simp [genericLoad, hv, hname]
    case bool b => simp [genericLoad, hv, hname]
    case int n => simp [genericLoad, hv, hname]
    case float l => simp [genericLoad, hv, hname]
    case classRef c => simp [genericLoad, hv, hname]
    case methodRef c => simp [genericLoad, hv, hname]
    all_goals simp [isHashable] at hhash
  · intro hhash
    cases name
    case list xs => simp [genericLoad, hv, hname]
    case dict kvs => simp [genericLoad, hv, hname]
    case dotdict s a => simp [genericLoad, hv, hname]
    case schemaObj k kvs => simp [genericLoad, hv, hname]
    case classyObject c s a => simp [genericLoad, hv, hname]
    case classyArray c xs => simp [genericLoad, hv, hname]
    all_goals simp [isHashable] at hhash

/-- Witness for C10 at the config scenario of `examples/config.py`:
`{"version": "v1", "verbosity": 1}` selects `ConfigV1` and the resulting
instance exposes `.verbosity == 1`; `"version": "v3"` fails with the
unknown-variant error listing `v1` and `v2`; and the unhashable
`"version": [1]` fails with the bare `TypeError`. -/
theorem c10_discriminator_load_witness :
    genericLoad envConfig 30 Option.none (some ("version", configVariants))
        (.dict [("version", .str "v1"), ("verbosity", .int 1)])
      = classyConstruct envConfig 30 0
          (.dict [("version", .str "v1"), ("verbosity", .int 1)]) true
    ∧ classyConstruct envConfig 30 0
          (.dict [("version", .str "v1"), ("verbosity", .int 1)]) true
        = .ok (.classyObject 0
            [("version", .str "v1"), ("verbosity", .int 1)]
            [("version", .str "v1"), ("verbosity", .int 1)])
    ∧ attrGet (.classyObject 0
          [("version", .str "v1"), ("verbosity", .int 1)]
          [("version", .str "v1"), ("verbosity", .int 1)]) "verbosity"
        = .ok (.int 1)
    ∧ genericLoad envConfig 30 Option.none (some ("version", configVariants))
        (.dict [("version", .str "v3"), ("verbosity", .int 1)])
      = .error (.unknownVariant (.str "v3") ["v1", "v2"])
    ∧ genericLoad envConfig 30 Option.none (some ("version", configVariants))
        (.dict [("version", .list [.int 2]), ("verbosity", .int 1)])
      = .error .typeErr :=
  ⟨((c10_discriminator_load envConfig 30 "version" configVariants
      (.dict [("version", .str "v1"), ("verbosity", .int 1)])
      [("version", .str "v1"), ("verbosity", .int 1)]
      (.str "v1") rfl rfl).1 0 rfl).1,
   rfl, rfl,
   (c10_discriminator_load envConfig 30 "version" configVariants
      (.dict [("version", .str "v3"), ("verbosity", .int 1)])
      [("version", .str "v3"), ("verbosity", .int 1)]
      (.str "v3") rfl rfl).2.1 rfl rfl,
   (c10_discriminator_load envConfig 30 "version" configVariants
      (.dict [("version", .list [.int 2]), ("verbosity", .int 1)])
      [("version", .list [.int 2]), ("verbosity", .int 1)]
      (.list [.int 2]) rfl rfl).2.2 rfl⟩

theorem lookupKV_map_self (pkvs ikvs : List (String × PVal)) (k : String)
    (h : k ∈ pkvs.map Prod.fst) :
    lookupKV (propValsOf pkvs ikvs) k = some ((lookupKV ikvs k).getD .none) := by
  induction pkvs with
  | nil => simp at h
  | cons kv rest ih =>
    simp only [List.map_cons, List.mem_cons] at h
    by_cases hk : kv.1 = k
    · subst hk
      simp [propValsOf, lookupKV]
    · rcases h with h | h
      · exact absurd h.symm hk
      · simp only [propValsOf, List.map_cons, lookupKV, hk, if_false]
        exact ih h

/-! ## Dump / load round trip (C9) -/

mutual

theorem serialize_pure : ∀ v : PVal, isPureJson v = true → serialize v = .ok v
  | .none, _ => rfl
  | .bool _, _ => rfl
  | .int _, _ => rfl
  | .float _, _ => rfl
  | .str _, _ => rfl
  | .list xs, h => by
    have := serializeList_pure xs (by simpa [isPureJson] using h)
    simp [serialize, this]
  | .dict kvs, h => by
    have := serializeKVs_pure kvs (by simpa [isPureJson] using h)
    simp [serialize, this]
  | .dotdict _ _, h => by simp [isPureJson] at h
  | .schemaObj _ _, h => by simp [isPureJson] at h
  | .classRef _, h => by simp [isPureJson] at h
  | .classyObject _ _ _, h => by simp [isPureJson] at h
  | .classyArray _ _, h => by simp [isPureJson] at h
  | .methodRef _, h => by simp [isPureJson] at h

theorem serializeList_pure : ∀ xs : List PVal, isPureJsonList xs = true →
    serializeList xs = .ok xs
  | [], _ => rfl
  | x :: rest, h => by
    simp only [isPureJsonList, Bool.and_eq_true] at h
    have h1 := serialize_pure x h.1
    have h2 := serializeList_pure rest h.2
    simp [serializeList, h1, h2]

theorem serializeKVs_pure : ∀ kvs : List (String × PVal), isPureJsonKVs kvs = true →
    serializeKVs kvs = .ok kvs
  | [], _ => rfl
  | (_, v) :: rest, h => by
    simp only [isPureJsonKVs, Bool.and_eq_true] at h
    have h1 := serialize_pure v h.1
    have h2 := serializeKVs_pure rest h.2
    simp [serializeKVs, h1, h2]

end

theorem loadProp_passthrough_dict (env : ClassEnv) (fuel : Nat)
    (pd : List (String × PVal)) (v lv : PVal)
    (hv : isNone v = false) (h : loadProp env fuel (.dict pd) v = .ok lv) :
    lv = v := by
  match fuel with
  | 0 => exact Except.noConfusion h
  | fuel + 1 =>
    cases v
    case none => simp [isNone] at hv
    all_goals
      simp only [loadProp] at h
      injection h with h
      exact h.symm

theorem loadProps_passthrough (env : ClassEnv) (props : List (String × PVal)) :
    ∀ (fuel : Nat) (ikvs acc d : List (String × PVal)),
      (props.all fun kv => isExactDict kv.2 && presentPureIn ikvs kv.1) = true →
      loadProps env fuel props ikvs acc = .ok d →
      d = (propValsOf props ikvs).foldl (fun a kv => insertKV a kv.1 kv.2) acc := by
  induction props with
  | nil =>
    intro fuel ikvs acc d _ h
    match fuel with
    | 0 => exact Except.noConfusion h
    | fuel + 1 =>
      simp only [loadProps] at h
      injection h with h
      rw [← h]
      rfl
  | cons kv rest ih =>
    obtain ⟨k0, ps⟩ := kv
    intro fuel ikvs acc d hall h
    simp only [List.all_cons, Bool.and_eq_true] at hall
    obtain ⟨⟨hd, hp⟩, hrest⟩ := hall
    match fuel with
    | 0 => exact Except.noConfusion h
    | fuel + 1 =>
      cases ps
      case dict pd =>
        cases hlk : lookupKV ikvs k0 with
        | none => simp [presentPureIn, hlk] at hp
        | some vk =>
          simp only [presentPureIn, hlk, Bool.and_eq_true, Bool.not_eq_true'] at hp
          cases hlp : loadProp env fuel (.dict pd) ((lookupKV ikvs k0).getD .none) with
          | error e =>
            simp only [loadProps, hlp] at h
            exact Except.noConfusion h
          | ok lv =>
            simp only [loadProps, hlp] at h
            rw [hlk] at hlp
            have hveq : (some vk).getD PVal.none = vk := rfl
            rw [hveq] at hlp
            have hlv : lv = vk := loadProp_passthrough_dict env fuel pd vk lv hp.1 hlp
            have := ih fuel ikvs (insertKV acc k0 lv) d
              (by simpa [List.all_eq_true] using hrest) h
            rw [this]
            simp only [propValsOf, List.map_cons, List.foldl_cons]
            rw [hlk, hveq, hlv]
      all_goals simp [isExactDict] at hd

theorem propValsOf_keys (pkvs ikvs : List (String × PVal)) :
    (propValsOf pkvs ikvs).map Prod.fst = pkvs.map Prod.fst := by
  simp [propValsOf, List.map_map]

theorem propValsOf_pure (pkvs ikvs : List (String × PVal))
    (hall : (pkvs.all fun kv => isExactDict kv.2 && presentPureIn ikvs kv.1) = true) :
    isPureJsonKVs (propValsOf pkvs ikvs) = true := by
  induction pkvs with
  | nil => rfl
  | cons kv rest ih =>
    simp only [List.all_cons, Bool.and_eq_true] at hall
    obtain ⟨⟨_, hp⟩, hrest⟩ := hall
    cases hlk : lookupKV ikvs kv.1 with
    | none => simp [presentPureIn, hlk] at hp
    | some vk =>
      simp only [presentPureIn, hlk, Bool.and_eq_true] at hp
      simp only [propValsOf, List.map_cons, isPureJsonKVs, Bool.and_eq_true]
      exact ⟨by rw [hlk]; exact hp.2, ih hrest⟩

theorem propValsOf_idem (pkvs ikvs : List (String × PVal)) :
    propValsOf pkvs (propValsOf pkvs ikvs) = propValsOf pkvs ikvs := by
  unfold propValsOf
  apply List.map_congr_left
  intro kv hkv
  have hmem : kv.1 ∈ pkvs.map Prod.fst := List.mem_map_of_mem Prod.fst hkv
  have := lookupKV_map_self pkvs ikvs kv.1 hmem
  unfold propValsOf at this
  rw [this]
  rfl

theorem presentPure_propValsOf (pkvs ikvs : List (String × PVal))
    (hall : (pkvs.all fun kv => isExactDict kv.2 && presentPureIn ikvs kv.1) = true) :
    (pkvs.all fun kv =>
      isExactDict kv.2 && presentPureIn (propValsOf pkvs ikvs) kv.1) = true := by
  rw [List.all_eq_true] at hall ⊢
  intro kv hkv
  have h1 := hall kv hkv
  simp only [Bool.and_eq_true] at h1 ⊢
  refine ⟨h1.1, ?_⟩
  have hmem : kv.1 ∈ pkvs.map Prod.fst := List.mem_map_of_mem Prod.fst hkv
  have hms := lookupKV_map_self pkvs ikvs kv.1 hmem
  simp only [propValsOf] at hms
  simp only [presentPureIn, propValsOf, hms]
  cases hlk : lookupKV ikvs kv.1 with
  | none =>
    have := h1.2
    simp [presentPureIn, hlk] at this
  | some vk =>
    have := h1.2
    simp only [presentPureIn, hlk] at this
    simpa [hlk] using this

theorem dotUpdateFold_fst (pairs : List (String × PVal)) :
    ∀ s a, (pairs.foldl
        (fun sa kv => (insertKV sa.1 kv.1 kv.2, insertKV sa.2 kv.1 (wrapIfDict kv.2)))
        (s, a)).1
      = pairs.foldl (fun acc kv => insertKV acc kv.1 kv.2) s := by
  induction pairs with
  | nil =>
    intro s a
    rfl
  | cons kv rest ih =>
    intro s a
    simp only [List.foldl_cons]
    exact ih _ _

theorem objectLoad_passthrough (env : ClassEnv) (fuel : Nat)
    (skvs pkvs ikvs d : List (String × PVal)) (vb : Bool)
    (hp : dictFields ((lookupKV skvs "properties").getD (.dict [])) = some pkvs)
    (hall : (pkvs.all fun kv => isExactDict kv.2 && presentPureIn ikvs kv.1) = true)
    (hnd : (pkvs.map Prod.fst).Nodup)
    (h : objectLoad env fuel skvs (.dict ikvs) vb = .ok d) :
    d = propValsOf pkvs ikvs := by
  match fuel with
  | 0 => exact Except.noConfusion h
  | fuel + 1 =>
    simp only [objectLoad] at h
    cases hcv : checkValidate env fuel .object skvs (.dict ikvs) vb with
    | error e =>
      simp only [hcv] at h
      exact Except.noConfusion h
    | ok u =>
      have hdf : dictFields (PVal.dict ikvs) = some ikvs := rfl
      simp only [hcv, hdf, hp] at h
      rw [loadProps_passthrough env pkvs fuel ikvs [] d hall h,
        foldl_insertKV_disjoint (propValsOf pkvs ikvs) []
          (by rw [propValsOf_keys]; exact hnd) (fun k _ => rfl)]
      rfl

theorem classyConstruct_object_store (env : ClassEnv) (fuel : Nat) (c : Nat)
    (skvs pkvs ikvs : List (String × PVal)) (vb : Bool) (inst : PVal)
    (henv : env.get? c = some (.object, skvs))
    (hp : dictFields ((lookupKV skvs "properties").getD (.dict [])) = some pkvs)
    (hall : (pkvs.all fun kv => isExactDict kv.2 && presentPureIn ikvs kv.1) = true)
    (hnd : (pkvs.map Prod.fst).Nodup)
    (h : classyConstruct env fuel c (.dict ikvs) vb = .ok inst) :
    ∃ ats, inst = .classyObject c (propValsOf pkvs ikvs) ats := by
  match fuel with
  | 0 => exact Except.noConfusion h
  | fuel + 1 =>
    simp only [classyConstruct, henv] at h
    cases hl1 : objectLoad env fuel skvs (.dict ikvs) vb with
    | error e =>
      simp only [hl1] at h
      exact Except.noConfusion h
    | ok u =>
      simp only [hl1] at h
      cases hl2 : objectLoad env fuel skvs (.dict ikvs) false with
      | error e =>
        simp only [hl2] at h
        exact Except.noConfusion h
      | ok data =>
        simp only [hl2] at h
        injection h with h
        have hd : data = propValsOf pkvs ikvs :=
          objectLoad_passthrough env fuel skvs pkvs ikvs data false hp hall hnd hl2
        have hfst : (dotUpdateFold data).1 = propValsOf pkvs ikvs := by
          unfold dotUpdateFold
          rw [dotUpdateFold_fst data [] [], hd,
            foldl_insertKV_disjoint (propValsOf pkvs ikvs) []
              (by rw [propValsOf_keys]; exact hnd) (fun k _ => rfl)]
          rfl
        refine ⟨(dotUpdateFold data).2, ?_⟩
        rw [← h, hfst]

/-- C9 amended: the dump-then-load round trip reproduces the instance only
when the reload still validates; for a class whose declared properties are
plain non-class fragments, all present in the original input with non-null
pure JSON values, a succeeding reload of the dump yields an instance with
the same stored value at every declared property (the store being exactly
the declared properties paired with the input's values).  In general the
reload can fail outright: an absent optional property is stored as the null
placeholder, which the re-validation then rejects. -/
theorem c9_roundtrip_amended (env : ClassEnv) (f1 f2 : Nat) (c : Nat)
    (skvs pkvs ikvs : List (String × PVal)) (inst out inst2 : PVal)
    (henv : env.get? c = some (.object, skvs))
    (hp : dictFields ((lookupKV skvs "properties").getD (.dict [])) = some pkvs)
    (hall : (pkvs.all fun kv => isExactDict kv.2 && presentPureIn ikvs kv.1) = true)
    (hnd : (pkvs.map Prod.fst).Nodup)
    (h1 : classyConstruct env f1 c (.dict ikvs) true = .ok inst)
    (hser : serialize inst = .ok out)
    (h2 : classyConstruct env f2 c out true = .ok inst2) :
    dotStore inst2 = dotStore inst
    ∧ dotStore inst = propValsOf pkvs ikvs := by
  obtain ⟨ats, rfl⟩ :=
    classyConstruct_object_store env f1 c skvs pkvs ikvs true inst henv hp hall hnd h1
  have hpure := propValsOf_pure pkvs ikvs hall
  have hs : serialize (.classyObject c (propValsOf pkvs ikvs) ats)
      = .ok (.dict (propValsOf pkvs ikvs)) := by
    simp [serialize, serializeKVs_pure _ hpure]
  rw [hs] at hser
  injection hser with hser
  rw [← hser] at h2
  obtain ⟨ats2, rfl⟩ :=
    classyConstruct_object_store env f2 c skvs pkvs (propValsOf pkvs ikvs) true inst2
      henv hp (presentPure_propValsOf pkvs ikvs hall) hnd h2
  exact ⟨propValsOf_idem pkvs ikvs, rfl⟩

/-- C9 counterexample: constructing `ConfigV1` from the empty mapping
stores the null placeholder for both declared (optional) properties; the
dump serializes them as nulls, and loading that dump back with the same
class fails validation (null is neither a string nor an integer) — the
round trip reproduces no instance at all. -/
theorem c9_counterexample :
    classyConstruct envConfig 30 0 (.dict []) true
      = .ok (.classyObject 0
          [("version", PVal.none), ("verbosity", PVal.none)]
          [("version", PVal.none), ("verbosity", PVal.none)])
    ∧ serialize (.classyObject 0
          [("version", PVal.none), ("verbosity", PVal.none)]
          [("version", PVal.none), ("verbosity", PVal.none)])
        = .ok (.dict [("version", PVal.none), ("verbosity", PVal.none)])
    ∧ classyConstruct envConfig 30 0
        (.dict [("version", PVal.none), ("verbosity", PVal.none)]) true
      = .error .validationErr :=
  ⟨rfl, rfl, rfl⟩

/-- Witness for C9 at a `ConfigV1` instance whose declared properties are
both present: the round trip reproduces the stored properties exactly. -/
theorem c9_roundtrip_amended_witness :
    dotStore (.classyObject 0
        [("version", PVal.str "v1"), ("verbosity", PVal.int 1)]
        [("version", PVal.str "v1"), ("verbosity", PVal.int 1)])
      = dotStore (.classyObject 0
          [("version", PVal.str "v1"), ("verbosity", PVal.int 1)]
          [("version", PVal.str "v1"), ("verbosity", PVal.int 1)])
    ∧ dotStore (.classyObject 0
        [("version", PVal.str "v1"), ("verbosity", PVal.int 1)]
        [("version", PVal.str "v1"), ("verbosity", PVal.int 1)])
      = propValsOf
          [("version", .dict [("type", .str "string")]),
           ("verbosity", .dict [("type", .str "integer")])]
          [("version", PVal.str "v1"), ("verbosity", PVal.int 1)] :=
  c9_roundtrip_amended envConfig 30 30 0 configV1Schema
    [("version", .dict [("type", .str "string")]),
     ("verbosity", .dict [("type", .str "integer")])]
    [("version", PVal.str "v1"), ("verbosity", PVal.int 1)]
    (.classyObject 0
      [("version", PVal.str "v1"), ("verbosity", PVal.int 1)]
      [("version", PVal.str "v1"), ("verbosity", PVal.int 1)])
    (.dict [("version", PVal.str "v1"), ("verbosity", PVal.int 1)])
    (.classyObject 0
      [("version", PVal.str "v1"), ("verbosity", PVal.int 1)]
      [("version", PVal.str "v1"), ("verbosity", PVal.int 1)])
    rfl rfl rfl (by decide) rfl rfl rfl

end Classy
